import Mathlib

/-!
Shallow embedding of the retrieval and verification pipeline of
wordlistctl (src/wordlistctl.py).  Python functions become Lean
functions; the console, the filesystem, the network and the torrent
capability are modelled as an explicit trace of events plus an explicit
world state threaded through each function.  Fallible Python code
(raising exceptions) returns Except values.
-/

namespace Wordlistctl

/-! ## String helpers mirroring the Python primitives used by the source -/

/-- Boolean test that the first char list is an initial segment of the second
(models Python str.startswith at char level). -/
def listIsPre : List Char → List Char → Bool
  | [], _ => true
  | _ :: _, [] => false
  | a :: as, b :: bs => a == b && listIsPre as bs

/-- Models Python url.startswith(pat). -/
def strStartsWith (s pat : String) : Bool :=
  listIsPre pat.data s.data

/-- Models Python suffix tests done with re.fullmatch over a literal tail. -/
def strEndsWith (s pat : String) : Bool :=
  listIsPre pat.data.reverse s.data.reverse

/-- Models Python str.lower applied character by character. -/
def lowerStr (s : String) : String :=
  String.mk (s.data.map Char.toLower)

/-- Accumulator pass behind lastSegment: keeps the chars seen since the most
recent slash. -/
def lastSegAux : List Char → List Char → List Char
  | [], acc => acc.reverse
  | c :: cs, acc => if c = '/' then lastSegAux cs [] else lastSegAux cs (c :: acc)

/-- Models both Python url.split(slash)[-1] (line 341) and os.path.basename:
the substring after the final slash. -/
def lastSegment (s : String) : String :=
  String.mk (lastSegAux s.data [])

/-- Scans a reversed char list and drops up to and including the first dot,
stopping at a slash (no extension in the last path segment). -/
def stripExtRev : List Char → Option (List Char)
  | [] => none
  | '.' :: rest => some rest
  | '/' :: _ => none
  | _ :: rest => stripExtRev rest

/-- Models os.path.splitext(filepath)[0] as used on line 161: the path with
its final extension removed. -/
def stripExt (s : String) : String :=
  match stripExtRev s.data.reverse with
  | some rest => String.mk rest.reverse
  | none => s

/-- Models url.replace("torrent+", "") (lines 349-352): removes every
occurrence of the literal marker, scanning left to right. -/
def stripTorrentMark : List Char → List Char
  | 't' :: 'o' :: 'r' :: 'r' :: 'e' :: 'n' :: 't' :: '+' :: rest => stripTorrentMark rest
  | c :: cs => c :: stripTorrentMark cs
  | [] => []

/-- String level wrapper of stripTorrentMark. -/
def pyReplaceTorrentMark (s : String) : String :=
  String.mk (stripTorrentMark s.data)

/-- Lexicographic comparison of char lists by code point, the order Python
uses to sort a list of str. -/
def listLe : List Char → List Char → Bool
  | [], _ => true
  | _ :: _, [] => false
  | a :: as, b :: bs =>
    if a.toNat < b.toNat then true
    else if b.toNat < a.toNat then false
    else listLe as bs

/-- Models the Python total order on strings. -/
def strLe (a b : String) : Bool :=
  listLe a.data b.data

/-- Insertion step of the sort modelling list.sort() on a list of URLs. -/
def insertSorted (x : String) : List String → List String
  | [] => [x]
  | y :: ys => if strLe x y then x :: y :: ys else y :: insertSorted x ys

/-- Models urls.sort() (line 335): ascending lexicographic sort.  Equal keys
are identical strings, so stability is immaterial. -/
def sortUrls : List String → List String
  | [] => []
  | x :: xs => insertSorted x (sortUrls xs)

/-- Models Python list.index(url) on a list of strings: position of the first
occurrence (line 343). -/
def idxOf : List String → String → Nat
  | [], _ => 0
  | x :: xs, y => if x = y then 0 else idxOf xs y + 1

/-! ## Digest model

The source streams the file through hashlib md5 in chunk_size reads
(lines 246-252).  The md5 object is modelled by its defining stream
property: update folds a byte step over the data, and hexdigest renders
the final state as a 32 character hex string.  The compression function
itself stays a parameter; only its 32 character output length (true of
every md5 hex digest) is recorded, because integrity_check compares the
digest with the expected checksum string. -/

/-- Byte content of a file. -/
abbrev Byte := Nat

/-- Interface of the hashlib md5 object as the source uses it: a running
state folded over the bytes fed to update, rendered by hexdigest as a
string of exactly 32 hex characters. -/
structure HashImpl (S : Type) where
  init : S
  step : S → Byte → S
  hexdigest : S → String
  hexdigest_length : ∀ s, (hexdigest s).length = 32

/-- Fuel driven chunking of a byte list: the successive results of
fp.read(chunkSz) in the loop on lines 248-252.  Fuel equal to the length
of the list is always sufficient when chunkSz is positive. -/
def chunkifyF : Nat → Nat → List Byte → List (List Byte)
  | 0, _, _ => []
  | _ + 1, _, [] => []
  | fuel + 1, n, l => l.take n :: chunkifyF fuel n (l.drop n)

/-- Chunk view of a file body, as produced by the read loop. -/
def chunkify (n : Nat) (l : List Byte) : List (List Byte) :=
  chunkifyF l.length n l

/-- State of the md5 object after the chunked update loop of
integrity_check (lines 246-252). -/
def md5_chunks {S : Type} (H : HashImpl S) (chunkSz : Nat) (content : List Byte) : S :=
  (chunkify chunkSz content).foldl (fun s d => d.foldl H.step s) H.init

/-! ## Effects: errors, events, filesystem, world -/

/-- Python exception kinds raised by the embedded code.  systemExit stands
for exit(-1), which the except Exception handler of the retry loop does
not catch. -/
inductive PyErr
  | ioError (msg : String)
  | valueError (msg : String)
  | indexError (msg : String)
  | keyError
  | netError
  | systemExit
deriving DecidableEq

/-- Decidable equality of Except results, used to evaluate run outcomes
on concrete inputs. -/
instance {ε α : Type} [DecidableEq ε] [DecidableEq α] : DecidableEq (Except ε α) := fun a b =>
  match a, b with
  | Except.ok x, Except.ok y =>
    if h : x = y then Decidable.isTrue (by rw [h]) else Decidable.isFalse (by simp [h])
  | Except.error x, Except.error y =>
    if h : x = y then Decidable.isTrue (by rw [h]) else Decidable.isFalse (by simp [h])
  | Except.ok _, Except.error _ => Decidable.isFalse (by simp)
  | Except.error _, Except.ok _ => Decidable.isFalse (by simp)

/-- Observable trace of one run: console lines, filesystem operations,
network operations and capability invocations. -/
inductive Event
  | info (s : String)
  | warn (s : String)
  | err (s : String)
  | success (s : String)
  | mkdir (d : String)
  | sleep (n : Nat)
  | resolverCall (url : String)
  | netGet (url : String)
  | writeFile (p : String)
  | removeFile (p : String)
  | verify (checksum p : String)
  | decompressCall (p : String)
  | extractArchive (p : String)
  | torrentStart (url p : String)
  | submit (name : String)
deriving DecidableEq

/-- Boolean test for network events (URL resolution or an HTTP request). -/
def isNetEvent : Event → Bool
  | .resolverCall _ => true
  | .netGet _ => true
  | _ => false

/-- Boolean test for the console error line of one failed attempt. -/
def isErrOf (msg : String) : Event → Bool
  | .err s => s = msg
  | _ => false

/-- Boolean test for the removal of a given path. -/
def isRemoveOf (p : String) : Event → Bool
  | .removeFile q => q = p
  | _ => false

/-- Association list from path to byte content: the files of the
destination tree. -/
abbrev FS := List (String × List Byte)

/-- Content of the file at a path, if present. -/
def lookupFS : FS → String → Option (List Byte)
  | [], _ => none
  | (q, c) :: rest, p => if q = p then some c else lookupFS rest p

/-- Models writing a file: opened for writing, then the body written whole. -/
def updateFS (fs : FS) (p : String) (c : List Byte) : FS :=
  (p, c) :: fs.filter (fun x => decide (x.1 ≠ p))

/-- Models os.remove inside remove() (lines 172-176): deletes the path if
present; missing paths are a swallowed no-op. -/
def removeFS (fs : FS) (p : String) : FS :=
  fs.filter (fun x => decide (x.1 ≠ p))

/-- Models os.path.isfile via check_file (lines 493-494). -/
def check_file (fs : FS) (p : String) : Bool :=
  (lookupFS fs p).isSome

/-- Global configuration of the script (the module level globals set by the
CLI layer, lines 50-65). -/
structure Config where
  wordlist_path : String := "/usr/share/wordlists"
  selected_category : String := ""
  decompress_archive : Bool := false
  remove_archive : Bool := false
  prefer_http : Bool := false
  torrent_dl : Bool := true
  skip_integrity_check : Bool := false
  max_retry : Nat := 3
  chunk_size : Nat := 1024

/-- World state threaded through the pipeline: files, directories, the md5
object model and oracles for the network, the indirection resolvers and
the opaque extraction and torrent capabilities. -/
structure World (S : Type) where
  fs : FS
  dirs : List String
  hash : HashImpl S
  net : String → Option (List Byte)
  resolverOutcomes : String → Nat → Except Unit String
  torrentData : String → List Byte
  torrentName : String → String
  extract : List Byte → List Byte

/-! ## Integrity Verifier (integrity_check, lines 239-254)

The source prints an info line, prints a skip warning when the checksum
is the SKIP sentinel or the global skip flag is set, and then, with no
early return, opens the file, digests it in chunk_size reads and raises
IOError when the expected checksum differs from the hex digest. -/

/-- Embedding of integrity_check.  The file is read through the fs map;
a missing file models the failing open. -/
def integrity_check {S : Type} (H : HashImpl S) (skip : Bool) (chunkSz : Nat)
    (fs : FS) (checksum path : String) : List Event × Except PyErr Unit :=
  let filename := lastSegment path
  let evs := [Event.info ("checking " ++ filename ++ " integrity")]
  let evs := if checksum = "SKIP" || skip then
    evs ++ [Event.warn (filename ++ " integrity check -- skipping")] else evs
  match lookupFS fs path with
  | none => (evs, Except.error (PyErr.ioError "No such file or directory"))
  | some content =>
    if checksum ≠ H.hexdigest (md5_chunks H chunkSz content) then
      (evs, Except.error (PyErr.ioError (filename ++ " integrity check -- failed")))
    else (evs, Except.ok ())

/-! ## URL Resolver (resolve, resolve_sourceforge, resolve_mediafire,
lines 179-223) -/

/-- Selects the special resolver exactly as the two startswith tests on
lines 211-214 do: some for the sourceforge and mediafire hosting
patterns, none otherwise. -/
def resolverOf (url : String) : Option Nat :=
  if strStartsWith url "http://downloads.sourceforge.net/" then some 0
  else if strStartsWith url "http://www.mediafire.com/file/" then some 1
  else none

/-- Models one call of resolve_sourceforge or resolve_mediafire: the body
runs under try, and any transport exception is swallowed into the empty
string (lines 194-195 and 204-205).  The oracle outcome is the value the
body would compute, or an exception. -/
def runResolver (outcome : Except Unit String) : String :=
  match outcome with
  | Except.ok s => s
  | Except.error _ => ""

/-- Fuel driven embedding of the while loop on lines 218-222: while the
result is empty and fewer than 10 attempts were made, call the resolver,
sleep 10 seconds, increment the counter.  Returns the result, the number
of resolver calls made, and the event trace.  Fuel 10 is always enough
because the counter rises once per iteration. -/
def resolveLoopF (attempts : Nat → Except Unit String) (url : String) :
    Nat → String → Nat → String × Nat × List Event
  | 0, resolved, _ => (resolved, 0, [])
  | fuel + 1, resolved, count =>
    if resolved = "" ∧ count < 10 then
      let r := runResolver (attempts count)
      let rest := resolveLoopF attempts url fuel r (count + 1)
      (rest.1, rest.2.1 + 1, Event.resolverCall url :: Event.sleep 10 :: rest.2.2)
    else (resolved, 0, [])

/-- Embedding of resolve (lines 208-223): identity for ordinary URLs,
retry loop driven by the matching special resolver otherwise. -/
def resolve (attempts : Nat → Except Unit String) (url : String) :
    String × Nat × List Event :=
  if (resolverOf url).isSome then resolveLoopF attempts url 10 "" 0
  else (url, 0, [])

/-! ## Transport Fetcher, HTTP side (fetch_file, lines 257-271) -/

/-- Embedding of fetch_file: if the destination already exists, warn and
return; otherwise resolve the URL, stream the response to the path, and
report success.  A none from the network oracle models requests.get
raising. -/
def fetch_file {S : Type} (w : World S) (url path : String) :
    World S × List Event × Except PyErr Unit :=
  let filename := lastSegment path
  if check_file w.fs path then
    (w, [Event.warn (filename ++ " already exists -- skipping")], Except.ok ())
  else
    let evs0 := [Event.info ("downloading " ++ filename ++ " to " ++ path)]
    let r := resolve (w.resolverOutcomes url) url
    let dlurl := r.1
    match w.net dlurl with
    | none => (w, evs0 ++ r.2.2 ++ [Event.netGet dlurl], Except.error PyErr.netError)
    | some data =>
      ({w with fs := updateFS w.fs path data},
       evs0 ++ r.2.2 ++ [Event.netGet dlurl, Event.writeFile path,
         Event.success ("downloading " ++ filename ++ " completed")],
       Except.ok ())

/-! ## Archive Decompressor (decompress, lines 142-164)

Dispatch is on the lowercased name: the rar family, the generic archive
family, then the single stream families on the lowercased full path, and
otherwise ValueError.  The literal tail tests stand in for the
re.fullmatch patterns over the same literals.  Extraction itself is the
opaque capability: archive families only record the extraction, stream
families write the filtered body to the path without its final
extension. -/

/-- Suffixes of the generic archive family (line 149). -/
def archiveSuffixes : List String :=
  [".zip", ".7z", ".tar", ".tar.gz", ".tar.xz", ".tar.bz2"]

/-- Embedding of decompress. -/
def decompress {S : Type} (w : World S) (filepath : String) :
    World S × List Event × Except PyErr Unit :=
  let filename := lastSegment filepath
  let evs0 := [Event.decompressCall filepath,
    Event.info ("decompressing " ++ filename)]
  let done := Event.success ("decompressing " ++ filename ++ " completed")
  if strEndsWith (lowerStr filename) ".rar"
      || archiveSuffixes.any (fun suf => strEndsWith (lowerStr filename) suf) then
    match lookupFS w.fs filepath with
    | none => (w, evs0, Except.error (PyErr.ioError "No such file or directory"))
    | some _ => (w, evs0 ++ [Event.extractArchive filepath, done], Except.ok ())
  else if strEndsWith (lowerStr filepath) ".gz"
      || (strEndsWith (lowerStr filepath) ".bz" || strEndsWith (lowerStr filepath) ".bz2")
      || (strEndsWith (lowerStr filepath) ".lzma" || strEndsWith (lowerStr filepath) ".xz") then
    match lookupFS w.fs filepath with
    | none => (w, evs0, Except.error (PyErr.ioError "No such file or directory"))
    | some c =>
      ({w with fs := updateFS w.fs (stripExt filepath) (w.extract c)},
       evs0 ++ [Event.writeFile (stripExt filepath), done], Except.ok ())
  else (w, evs0, Except.error (PyErr.valueError "unknown file type"))

/-! ## Transport Fetcher, torrent side (fetch_torrent, lines 274-321) -/

/-- Directory part of a path: the chars before the final slash. -/
def dirname (s : String) : String :=
  match s.data.reverse.dropWhile (fun c => c ≠ '/') with
  | [] => ""
  | _ :: rest => String.mk rest.reverse

/-- Embedding of fetch_torrent.  Magnet mode downloads the swarm named
artifact next to the requested path; torrent file mode returns early when
torrent downloads are disabled, exits the process when the descriptor is
missing, and otherwise consumes the descriptor.  Both completed modes
hand the produced file to decompress (line 321). -/
def fetch_torrent {S : Type} (cfg : Config) (w : World S) (url path : String) :
    World S × List Event × Except PyErr Unit :=
  if strStartsWith url "magnet:?" then
    let outName := dirname path ++ "/" ++ w.torrentName url
    let w1 : World S := {w with fs := updateFS w.fs outName (w.torrentData url)}
    let d := decompress w1 outName
    (d.1, Event.torrentStart url path :: Event.writeFile outName :: d.2.1, d.2.2)
  else if ¬ cfg.torrent_dl then (w, [], Except.ok ())
  else if check_file w.fs path then
    let outName := dirname path ++ "/" ++ w.torrentName path
    let w1 : World S := {w with fs := updateFS (removeFS w.fs path) outName (w.torrentData path)}
    let d := decompress w1 outName
    (d.1, Event.torrentStart url path :: Event.removeFile path ::
      Event.writeFile outName :: d.2.1, d.2.2)
  else
    (w, [Event.err (path ++ " not found")], Except.error PyErr.systemExit)

/-! ## Orchestrator, per entry (download_wordlist, lines 324-358) -/

/-- One catalog entry as the repo JSON shapes it: name, url list, checksum
list positionally aligned with the url list, and the size pair. -/
structure WEntry where
  name : String
  url : List String
  sum : List String
  size : List Nat
deriving DecidableEq

/-- Choice of URL from the sorted candidates (lines 337-340): the first
when prefer http is set, the last otherwise; an empty list models the
IndexError of urls[0]. -/
def chooseUrl (pref : Bool) (urls : List String) : Option String :=
  if pref then urls.head? else urls.getLast?

/-- Embedding of check_dir (lines 481-490): create the directory when
absent.  The mkdir failure path, which exits, is not reachable in this
model. -/
def check_dir {S : Type} (w : World S) (d : String) : World S × List Event :=
  if d ∈ w.dirs then (w, []) else ({w with dirs := d :: w.dirs}, [Event.mkdir d])

/-- One iteration of the try body of download_wordlist (lines 333-355).
Python sorts config["url"] in place, so the entry comes back with its url
field replaced by the sorted list; the checksum lookup then indexes the
checksum list by the position of the chosen URL inside that same sorted
list.  Returns the world, the (possibly mutated) entry, the value of the
file_path local after this iteration, the trace, and ok or the raised
exception. -/
def attemptBody {S : Type} (cfg : Config) (w : World S) (e : WEntry)
    (file_directory prevFp : String) :
    World S × WEntry × String × List Event × Except PyErr Unit :=
  let urls := sortUrls e.url
  let e1 : WEntry := {e with url := urls}
  match chooseUrl cfg.prefer_http urls with
  | none => (w, e1, prevFp, [], Except.error (PyErr.indexError "list index out of range"))
  | some url =>
    let filename := lastSegment url
    let file_path := file_directory ++ "/" ++ filename
    match e1.sum.get? (idxOf e1.url url) with
    | none => (w, e1, file_path, [], Except.error (PyErr.indexError "list index out of range"))
    | some csum =>
      if strStartsWith url "http" then
        let f := fetch_file w url file_path
        match f.2.2 with
        | Except.error ex => (f.1, e1, file_path, f.2.1, Except.error ex)
        | Except.ok _ =>
          let v := integrity_check w.hash cfg.skip_integrity_check cfg.chunk_size
            f.1.fs csum file_path
          match v.2 with
          | Except.error ex =>
            (f.1, e1, file_path, f.2.1 ++ Event.verify csum file_path :: v.1, Except.error ex)
          | Except.ok _ =>
            let d := decompress f.1 file_path
            (d.1, e1, file_path, f.2.1 ++ Event.verify csum file_path :: v.1 ++ d.2.1, d.2.2)
      else
        let stripped := pyReplaceTorrentMark url
        if strStartsWith stripped "magnet:?" then
          let t := fetch_torrent cfg w stripped file_path
          (t.1, e1, file_path, t.2.1, t.2.2)
        else
          let f := fetch_file w stripped file_path
          match f.2.2 with
          | Except.error ex => (f.1, e1, file_path, f.2.1, Except.error ex)
          | Except.ok _ =>
            let v := integrity_check w.hash cfg.skip_integrity_check cfg.chunk_size
              f.1.fs csum file_path
            match v.2 with
            | Except.error ex =>
              (f.1, e1, file_path, f.2.1 ++ Event.verify csum file_path :: v.1, Except.error ex)
            | Except.ok _ =>
              let t := fetch_torrent cfg f.1 url file_path
              (t.1, e1, file_path, f.2.1 ++ Event.verify csum file_path :: v.1 ++ t.2.1, t.2.2)

/-- Embedding of the retry loop on lines 331-358: run the try body; break
on success; on exit(-1) propagate; on any other exception report the
error, remove the partial file, and retry with the remaining budget.
When the budget reaches zero the function simply returns. -/
def downloadLoop {S : Type} (cfg : Config) (wordlistname : String) :
    Nat → World S → WEntry → String → String →
    World S × WEntry × List Event × Except PyErr Unit
  | 0, w, e, _, _ => (w, e, [], Except.ok ())
  | n + 1, w, e, fdir, fp =>
    let a := attemptBody cfg w e fdir fp
    match a.2.2.2.2 with
    | Except.ok _ => (a.1, a.2.1, a.2.2.2.1, Except.ok ())
    | Except.error PyErr.systemExit =>
      (a.1, a.2.1, a.2.2.2.1, Except.error PyErr.systemExit)
    | Except.error _ =>
      let w2 : World S := {a.1 with fs := removeFS a.1.fs a.2.2.1}
      let rest := downloadLoop cfg wordlistname n w2 a.2.1 fdir a.2.2.1
      (rest.1, rest.2.1,
        a.2.2.2.1 ++ Event.err ("Error while downloading " ++ wordlistname) ::
          Event.removeFile a.2.2.1 :: rest.2.2.1,
        rest.2.2.2)

/-- Embedding of download_wordlist (lines 324-358): ensure the category
directory, then run the retry loop for max_retry + 1 iterations, with the
file_path local initially empty. -/
def download_wordlist {S : Type} (cfg : Config) (w : World S) (e : WEntry)
    (wordlistname category : String) :
    World S × WEntry × List Event × Except PyErr Unit :=
  let dir := cfg.wordlist_path ++ "/" ++ category
  let c := check_dir w dir
  let r := downloadLoop cfg wordlistname (cfg.max_retry + 1) c.1 e dir ""
  (r.1, r.2.1, c.2 ++ r.2.2.1, r.2.2.2)

/-! ## Orchestrator, selection (download_wordlists, lines 361-402) -/

/-- One category of the repo: ordered entries plus the cached count and
aggregate size pair, exactly the repo JSON shape. -/
structure Cat where
  files : List WEntry
  count : Nat
  size : List Nat
deriving DecidableEq

/-- The catalog: category name to category, insertion ordered as a Python
dict preserves it.  Keys are unique in a dict; the embedding carries the
list and looks names up by first occurrence. -/
abbrev Repo := List (String × Cat)

/-- Sum of the cached per category counts (lines 369-370). -/
def totalCount : Repo → Nat
  | [] => 0
  | (_, c) :: rest => c.count + totalCount rest

/-- Models Python list indexing with its negative index convention:
a negative index counts from the end, and an index out of range on either
side is an IndexError (none). -/
def pyGet {α : Type} (l : List α) (i : Int) : Option α :=
  if 0 ≤ i then l.get? i.toNat
  else if (-i).toNat ≤ l.length then l.get? (l.length - (-i).toNat) else none

/-- Embedding of the cumulative counting loop on lines 387-394: running
count plus break on the first category whose cumulative count exceeds
wordlist_id - 1.  Returns the owning category with the cumulative count
at the break, or none when the loop finishes without breaking. -/
def findCat : Repo → Int → Nat → Option (String × Cat × Nat)
  | [], _, _ => none
  | (nm, c) :: rest, widm1, count =>
    let count1 := count + c.count
    if widm1 < (count1 : Int) then some (nm, c, count1)
    else findCat rest widm1 count1

/-- First occurrence lookup, modelling Python dict indexing by key. -/
def lookupAssoc : Repo → String → Option Cat
  | [], _ => none
  | (k, v) :: rest, key => if k = key then some v else lookupAssoc rest key

/-- Embedding of the selection logic of download_wordlists (lines
372-396): validity window, the id 0 cases, the in category case, and
the global cumulative case.  A loop that ends without breaking leaves cat
as the empty string, whose dict lookup raises KeyError. -/
def select (repo : Repo) (selCat : String) (wid : Int) :
    Except PyErr (List (String × List WEntry)) :=
  if wid ≥ (totalCount repo : Int) + 1 ∨ wid < 0 then
    Except.error (PyErr.indexError "is not a valid wordlist id")
  else if wid = 0 then
    if selCat = "" then Except.ok (repo.map fun p => (p.1, p.2.files))
    else match lookupAssoc repo selCat with
      | some c => Except.ok [(selCat, c.files)]
      | none => Except.error PyErr.keyError
  else if selCat ≠ "" then
    match lookupAssoc repo selCat with
    | some c =>
      match pyGet c.files (wid - 1) with
      | some f => Except.ok [(selCat, [f])]
      | none => Except.error (PyErr.indexError "list index out of range")
    | none => Except.error PyErr.keyError
  else
    match findCat repo (wid - 1) 0 with
    | some (nm, c, cum) =>
      match pyGet c.files ((wid - 1) - (cum : Int)) with
      | some f => Except.ok [(nm, [f])]
      | none => Except.error (PyErr.indexError "list index out of range")
    | none =>
      match lookupAssoc repo "" with
      | some c =>
        match pyGet c.files ((wid - 1) - (totalCount repo : Int)) with
        | some f => Except.ok [("", [f])]
        | none => Except.error (PyErr.indexError "list index out of range")
      | none => Except.error PyErr.keyError

/-- The catalog flattened in category declaration order: the list the
spec numbers entries over. -/
def flattenRepo (repo : Repo) : List WEntry :=
  (repo.map fun p => p.2.files).flatten

/-- Embedding of download_wordlists (lines 361-402): ensure the base
directory, run selection, and on success submit one task per selected
entry to the worker pool; an invalid id is reported and nothing is
submitted.  The submitted tasks themselves are the download_wordlist
embedding above. -/
def download_wordlists {S : Type} (cfg : Config) (repo : Repo) (w : World S)
    (wid : Int) : World S × List Event :=
  let c := check_dir w cfg.wordlist_path
  match select repo cfg.selected_category wid with
  | Except.error _ =>
    (c.1, c.2 ++ [Event.err "Error unable to download wordlist"])
  | Except.ok lst =>
    (c.1, c.2 ++ (lst.map fun p => p.2.map fun f => Event.submit f.name).flatten)

/-! ## Concrete instances used by witnesses and counterexamples -/

/-- Concrete model of the md5 object: the state keeps the bytes fed so
far, and hexdigest renders a fixed 32 character string.  Used only to
instantiate theorems that hold for every HashImpl. -/
def listHash : HashImpl (List Byte) where
  init := []
  step := fun s b => s ++ [b]
  hexdigest := fun _ => "00000000000000000000000000000000"
  hexdigest_length := fun _ => by
    show ("00000000000000000000000000000000" : String).length = 32
    decide

/-- World with empty filesystem, no directories, a fixed byte body behind
every URL, failing resolvers, and identity extraction. -/
def sampleWorld (netBody : String → Option (List Byte)) : World (List Byte) where
  fs := []
  dirs := []
  hash := listHash
  net := netBody
  resolverOutcomes := fun _ _ => Except.error ()
  torrentData := fun _ => []
  torrentName := fun _ => "t"
  extract := fun c => c

/-- Catalog entry with two URLs whose sorted order differs from the
declared order, and distinct checksums aligned with the declared order. -/
def entryBA : WEntry :=
  ⟨"e", ["http://b/file", "http://a/file"], ["s0", "s1"], [0, 0]⟩

/-- World serving a body for the lexicographically smallest of the two
URLs of entryBA. -/
def worldBA : World (List Byte) :=
  sampleWorld (fun u => if u = "http://a/file" then some [9] else none)

/-- Configuration with the prefer http flag set. -/
def cfgPreferHttp : Config := {prefer_http := true}

/-- Catalog entry with a single gz URL whose checksum matches the
concrete digest model. -/
def entryGz : WEntry :=
  ⟨"a", ["http://h/a.gz"], ["00000000000000000000000000000000"], [10, 20]⟩

/-- World serving a body for the URL of entryGz. -/
def worldGz : World (List Byte) :=
  sampleWorld (fun u => if u = "http://h/a.gz" then some [7] else none)

/-- World where every HTTP request raises. -/
def worldDark : World (List Byte) := sampleWorld (fun _ => none)

/-- Entry used to exercise the retry bound: one plain HTTP URL. -/
def entryHttp : WEntry := ⟨"x", ["http://h/x.bin"], ["c"], [1, 2]⟩

/-- Three named sample entries for the selection witnesses. -/
def entryA : WEntry := ⟨"A", [], [], []⟩

/-- Second sample entry. -/
def entryB : WEntry := ⟨"B", [], [], []⟩

/-- Third sample entry. -/
def entryC : WEntry := ⟨"C", [], [], []⟩

/-- Two category catalog: entryA and entryB under the first category,
entryC under the second. -/
def repoSmall : Repo := [("u", ⟨[entryA, entryB], 2, []⟩), ("p", ⟨[entryC], 1, []⟩)]

/-- World whose filesystem already holds one file. -/
def worldHasFile : World (List Byte) :=
  {worldDark with fs := [("/usr/share/wordlists/misc/p.txt", [1, 2])]}

/-! ## Lemmas about the chunked digest loop -/

/-- Folding the hash step over the chunk view equals folding it over the
whole byte list, for any positive chunk size and sufficient fuel. -/
theorem foldl_chunkifyF {S : Type} (H : HashImpl S) (n : Nat) (hn : 0 < n) :
    ∀ (fuel : Nat) (l : List Byte) (s : S), l.length ≤ fuel →
      (chunkifyF fuel n l).foldl (fun acc d => d.foldl H.step acc) s = l.foldl H.step s := by
  intro fuel
  induction fuel with
  | zero =>
    intro l s hl
    have hnil : l = [] := List.eq_nil_of_length_eq_zero (Nat.le_zero.mp hl)
    subst hnil
    simp [chunkifyF]
  | succ m ih =>
    intro l s hl
    cases l with
    | nil => simp [chunkifyF]
    | cons a as =>
      have hstep : chunkifyF (m + 1) n (a :: as) =
          (a :: as).take n :: chunkifyF m n ((a :: as).drop n) := rfl
      rw [hstep, List.foldl_cons]
      rw [ih ((a :: as).drop n) _ ?hlen]
      · rw [← List.foldl_append, List.take_append_drop]
      case hlen =>
        rw [List.length_drop]
        simp only [List.length_cons] at hl ⊢
        omega

/-- The chunked md5 state equals the one pass fold for any positive chunk
size. -/
theorem md5_chunks_eq_foldl {S : Type} (H : HashImpl S) (n : Nat) (hn : 0 < n)
    (content : List Byte) : md5_chunks H n content = content.foldl H.step H.init := by
  unfold md5_chunks chunkify
  exact foldl_chunkifyF H n hn content.length content H.init (le_refl _)

/-- Claim C10: for every file content and every positive chunk size, the
digest computed by the chunked streaming loop of integrity_check equals
the digest of the whole content in one pass, and the verification result
does not depend on the configured chunk size. -/
theorem digest_chunk_size_independent {S : Type} (H : HashImpl S) (n : Nat)
    (hn : 0 < n) (content : List Byte) :
    H.hexdigest (md5_chunks H n content) = H.hexdigest (content.foldl H.step H.init) ∧
    ∀ (skip : Bool) (fs : FS) (checksum path : String) (m : Nat), 0 < m →
      integrity_check H skip n fs checksum path = integrity_check H skip m fs checksum path := by
  refine ⟨by rw [md5_chunks_eq_foldl H n hn], ?_⟩
  intro skip fs checksum path m hm
  unfold integrity_check
  cases hfs : lookupFS fs path with
  | none => rfl
  | some c => simp only [md5_chunks_eq_foldl H n hn c, md5_chunks_eq_foldl H m hm c]

/-- Witness for C10 at chunk sizes 3 and 7 over a five byte file. -/
theorem digest_chunk_size_independent_witness :
    listHash.hexdigest (md5_chunks listHash 3 [1, 2, 3, 4, 5]) =
      listHash.hexdigest ([1, 2, 3, 4, 5].foldl listHash.step listHash.init) ∧
    integrity_check listHash false 3 [("p", [1, 2, 3, 4, 5])] "x" "p" =
      integrity_check listHash false 7 [("p", [1, 2, 3, 4, 5])] "x" "p" :=
  ⟨(digest_chunk_size_independent listHash 3 (by decide) [1, 2, 3, 4, 5]).1,
   (digest_chunk_size_independent listHash 3 (by decide) [1, 2, 3, 4, 5]).2
     false [("p", [1, 2, 3, 4, 5])] "x" "p" 7 (by decide)⟩

/-- Claim C1: the source logs the skip warning for the SKIP sentinel but,
lacking an early return, still digests the file and compares; the
sentinel, being 4 characters, never equals a 32 character hex digest, so
the verifier raises IOError instead of returning ok.  Holds for every
md5 model, every skip flag value, every chunk size and every content. -/
theorem integrity_check_skip_sentinel_fails {S : Type} (H : HashImpl S) (skip : Bool)
    (chunkSz : Nat) (path : String) (content : List Byte) :
    (integrity_check H skip chunkSz [(path, content)] "SKIP" path).2 =
      Except.error (PyErr.ioError (lastSegment path ++ " integrity check -- failed")) ∧
    Event.warn (lastSegment path ++ " integrity check -- skipping") ∈
      (integrity_check H skip chunkSz [(path, content)] "SKIP" path).1 := by
  have hne : ("SKIP" : String) ≠ H.hexdigest (md5_chunks H chunkSz content) := by
    intro h
    have hlen := H.hexdigest_length (md5_chunks H chunkSz content)
    rw [← h] at hlen
    exact absurd hlen (by decide)
  have hl : lookupFS [(path, content)] path = some content := by simp [lookupFS]
  unfold integrity_check
  rw [hl]
  simp [hne]

/-! ## Lemmas about the resolver retry loop -/

/-- With every resolver attempt swallowed to the empty string, the while
loop runs until the counter reaches 10, making one resolver call followed
by one ten second pause per iteration, and leaves the result empty. -/
theorem resolveLoopF_all_fail (attempts : Nat → Except Unit String) (url : String)
    (hfail : ∀ k, runResolver (attempts k) = "") :
    ∀ (fuel count : Nat), 10 ≤ count + fuel →
      resolveLoopF attempts url fuel "" count =
        ("", 10 - count,
          (List.replicate (10 - count) [Event.resolverCall url, Event.sleep 10]).flatten) := by
  intro fuel
  induction fuel with
  | zero =>
    intro count h
    have h0 : 10 - count = 0 := by omega
    simp [resolveLoopF, h0]
  | succ m ih =>
    intro count h
    by_cases hc : count < 10
    · have cond : ("" : String) = "" ∧ count < 10 := ⟨rfl, hc⟩
      rw [resolveLoopF, if_pos cond, hfail count]
      simp only [ih (count + 1) (by omega)]
      have h1 : 10 - count = (10 - (count + 1)) + 1 := by omega
      rw [h1, List.replicate_succ, List.flatten_cons]
      rfl
    · have h0 : 10 - count = 0 := by omega
      rw [resolveLoopF, if_neg (fun hcon : ("" : String) = "" ∧ count < 10 => hc hcon.2), h0]
      simp

/-- Claim C9: for a URL matching one of the two special hosting patterns
whose every resolution attempt raises or yields the empty string, resolve
makes 10 resolver calls (at most the initial attempt plus 10 retries),
with a ten second pause after each, swallows every exception, and
returns the empty string; for any other URL, resolve is the identity and
touches nothing. -/
theorem resolve_retry_policy (attempts : Nat → Except Unit String) (url : String) :
    ((resolverOf url).isSome = true →
      (∀ k, attempts k = Except.error () ∨ attempts k = Except.ok "") →
      resolve attempts url =
        ("", 10, (List.replicate 10 [Event.resolverCall url, Event.sleep 10]).flatten) ∧
      (resolve attempts url).2.1 ≤ 1 + 10) ∧
    ((resolverOf url).isSome = false → resolve attempts url = (url, 0, [])) := by
  constructor
  · intro hs hfail
    have hf : ∀ k, runResolver (attempts k) = "" := by
      intro k
      rcases hfail k with h | h <;> simp [runResolver, h]
    have hr : resolve attempts url =
        ("", 10, (List.replicate 10 [Event.resolverCall url, Event.sleep 10]).flatten) := by
      unfold resolve
      rw [hs]
      simpa using resolveLoopF_all_fail attempts url hf 10 0 (by omega)
    exact ⟨hr, by rw [hr]; exact (by decide : (10 : Nat) ≤ 1 + 10)⟩
  · intro hs
    unfold resolve
    rw [hs]
    rfl

/-- Witness for C9: a sourceforge URL with always failing attempts, and a
plain URL passed through unchanged. -/
theorem resolve_retry_policy_witness :
    resolve (fun _ => Except.error ()) "http://downloads.sourceforge.net/x" =
      ("", 10, (List.replicate 10
        [Event.resolverCall "http://downloads.sourceforge.net/x", Event.sleep 10]).flatten) ∧
    resolve (fun _ => Except.error ()) "http://example.com/f" =
      ("http://example.com/f", 0, []) :=
  ⟨((resolve_retry_policy (fun _ => Except.error ()) "http://downloads.sourceforge.net/x").1
      (by decide) (fun _ => Or.inl rfl)).1,
   (resolve_retry_policy (fun _ => Except.error ()) "http://example.com/f").2 (by decide)⟩

/-- Claim C8: when the destination file already exists, fetch_file only
warns and returns ok: the world is untouched, the file stays byte
identical, no resolver call and no HTTP request happens, and running the
fetch again from the resulting world gives the same result, so the fetch
is idempotent. -/
theorem fetch_file_skip_idempotent {S : Type} (w : World S) (url path : String)
    (h : check_file w.fs path = true) :
    fetch_file w url path =
      (w, [Event.warn (lastSegment path ++ " already exists -- skipping")], Except.ok ()) ∧
    lookupFS (fetch_file w url path).1.fs path = lookupFS w.fs path ∧
    (∀ e ∈ (fetch_file w url path).2.1, isNetEvent e = false) ∧
    fetch_file (fetch_file w url path).1 url path = fetch_file w url path := by
  have h1 : fetch_file w url path =
      (w, [Event.warn (lastSegment path ++ " already exists -- skipping")], Except.ok ()) := by
    unfold fetch_file
    rw [h]
    simp
  refine ⟨h1, by rw [h1], ?_, by rw [h1]; exact h1⟩
  rw [h1]
  intro e he
  simp at he
  rw [he]
  rfl

/-- Witness for C8 at a world already holding the destination file. -/
theorem fetch_file_skip_idempotent_witness :
    fetch_file worldHasFile "http://h/p.txt" "/usr/share/wordlists/misc/p.txt" =
      (worldHasFile,
        [Event.warn (lastSegment "/usr/share/wordlists/misc/p.txt" ++ " already exists -- skipping")],
        Except.ok ()) ∧
    lookupFS (fetch_file worldHasFile "http://h/p.txt" "/usr/share/wordlists/misc/p.txt").1.fs
        "/usr/share/wordlists/misc/p.txt" =
      lookupFS worldHasFile.fs "/usr/share/wordlists/misc/p.txt" ∧
    (∀ e ∈ (fetch_file worldHasFile "http://h/p.txt" "/usr/share/wordlists/misc/p.txt").2.1,
      isNetEvent e = false) ∧
    fetch_file (fetch_file worldHasFile "http://h/p.txt" "/usr/share/wordlists/misc/p.txt").1
        "http://h/p.txt" "/usr/share/wordlists/misc/p.txt" =
      fetch_file worldHasFile "http://h/p.txt" "/usr/share/wordlists/misc/p.txt" :=
  fetch_file_skip_idempotent worldHasFile "http://h/p.txt" "/usr/share/wordlists/misc/p.txt"
    (by decide)

/-! ## Lemmas about the URL sort -/

/-- The embedded string order is total. -/
theorem listLe_total (a : List Char) : ∀ b, listLe a b = true ∨ listLe b a = true := by
  induction a with
  | nil => intro b; left; rfl
  | cons x xs ihx =>
    intro b
    cases b with
    | nil => right; rfl
    | cons y ys =>
      rcases Nat.lt_trichotomy x.toNat y.toNat with h | h | h
      · left; simp [listLe, h]
      · have h2 : ¬ x.toNat < y.toNat := by omega
        have h3 : ¬ y.toNat < x.toNat := by omega
        rcases ihx ys with ih | ih
        · left; simp [listLe, h2, h3, ih]
        · right; simp [listLe, h2, h3, ih]
      · right
        have h2 : ¬ x.toNat < y.toNat := by omega
        simp [listLe, h, h2]

/-- String level totality of strLe. -/
theorem strLe_total (a b : String) : strLe a b = true ∨ strLe b a = true :=
  listLe_total a.data b.data

/-- Head of an insertion: either the inserted element or the old head. -/
theorem insertSorted_head? (x : String) (l : List String) :
    (insertSorted x l).head? = some x ∨ (insertSorted x l).head? = l.head? := by
  cases l with
  | nil => left; rfl
  | cons y ys =>
    by_cases h : strLe x y = true
    · left; simp [insertSorted, h]
    · right; simp [insertSorted, h]

/-- Insertion preserves adjacent sortedness. -/
theorem chain'_insertSorted (x : String) :
    ∀ l, List.Chain' (fun a b => strLe a b = true) l →
      List.Chain' (fun a b => strLe a b = true) (insertSorted x l) := by
  intro l
  induction l with
  | nil => intro _; simp [insertSorted]
  | cons y ys ih =>
    intro hl
    by_cases h : strLe x y = true
    · simp only [insertSorted, h, if_pos]
      exact List.chain'_cons'.mpr ⟨fun z hz => by simp at hz; rw [← hz]; exact h, hl⟩
    · have hyx : strLe y x = true := (strLe_total x y).resolve_left h
      simp only [insertSorted, h]
      rw [if_neg (by simp [h])]
      apply List.chain'_cons'.mpr
      constructor
      · intro z hz
        rcases insertSorted_head? x ys with hh | hh
        · rw [hh] at hz; simp at hz; rw [← hz]; exact hyx
        · rw [hh] at hz
          exact (List.chain'_cons'.mp hl).1 z hz
      · exact ih (List.Chain'.tail hl)

/-- The sort output is adjacent sorted. -/
theorem chain'_sortUrls (l : List String) :
    List.Chain' (fun a b => strLe a b = true) (sortUrls l) := by
  induction l with
  | nil => simp [sortUrls]
  | cons x xs ih => exact chain'_insertSorted x (sortUrls xs) ih

/-- Sorting an already sorted list returns it unchanged. -/
theorem sortUrls_of_chain' : ∀ l, List.Chain' (fun a b => strLe a b = true) l →
    sortUrls l = l := by
  intro l
  induction l with
  | nil => intro _; rfl
  | cons x xs ih =>
    intro hl
    show insertSorted x (sortUrls xs) = x :: xs
    rw [ih (List.Chain'.tail hl)]
    cases xs with
    | nil => rfl
    | cons y ys =>
      have hxy : strLe x y = true := (List.chain'_cons'.mp hl).1 y rfl
      simp [insertSorted, hxy]

/-- The URL sort is idempotent; this is what makes every retry iteration
after the first see the same entry state. -/
theorem sortUrls_idem (l : List String) : sortUrls (sortUrls l) = sortUrls l :=
  sortUrls_of_chain' (sortUrls l) (chain'_sortUrls l)

/-- Count of a predicate over a flattened replication. -/
theorem countP_flatten_replicate (p : Event → Bool) (l : List Event) :
    ∀ n, ((List.replicate n l).flatten.countP p) = n * l.countP p := by
  intro n
  induction n with
  | zero => simp
  | succ m ih =>
    rw [List.replicate_succ, List.flatten_cons, List.countP_append, ih]
    ring

/-! ## Lemmas about the retry loop of download_wordlist -/

/-- Removing an absent path leaves the filesystem untouched. -/
theorem removeFS_of_lookup_none (p : String) :
    ∀ fs : FS, lookupFS fs p = none → removeFS fs p = fs := by
  intro fs
  induction fs with
  | nil => intro _; rfl
  | cons x rest ih =>
    intro h
    unfold lookupFS at h
    by_cases hq : x.1 = p
    · rw [if_pos hq] at h
      exact absurd h (by simp)
    · rw [if_neg hq] at h
      unfold removeFS at ih ⊢
      simp only [List.filter_cons, decide_eq_true_eq]
      rw [if_pos (by simpa using hq)]
      rw [ih h]

/-- The scan restarts after a slash: the accumulator and the part before
the slash are discarded. -/
theorem lastSegAux_append_slash (b : List Char) :
    ∀ (a acc : List Char), lastSegAux (a ++ '/' :: b) acc = lastSegAux b [] := by
  intro a
  induction a with
  | nil => intro acc; simp [lastSegAux]
  | cons c cs ih =>
    intro acc
    by_cases hc : c = '/'
    · simp [lastSegAux, hc, ih]
    · simp [lastSegAux, hc, ih]

/-- Over slash free input the scan just appends to the accumulator. -/
theorem lastSegAux_no_slash : ∀ (l acc : List Char), '/' ∉ l →
    lastSegAux l acc = acc.reverse ++ l := by
  intro l
  induction l with
  | nil => intro acc _; simp [lastSegAux]
  | cons c cs ih =>
    intro acc h
    have hc : ¬ c = '/' := fun hcc => h (by rw [hcc]; exact List.mem_cons_self ..)
    have hcs : '/' ∉ cs := fun hm => h (List.mem_cons_of_mem _ hm)
    simp [lastSegAux, hc, ih (c :: acc) hcs]

/-- The scan never outputs a slash. -/
theorem no_slash_lastSegAux : ∀ (l acc : List Char), '/' ∉ acc →
    '/' ∉ lastSegAux l acc := by
  intro l
  induction l with
  | nil => intro acc h; simpa [lastSegAux] using h
  | cons c cs ih =>
    intro acc h
    by_cases hc : c = '/'
    · simp only [lastSegAux, hc, if_pos]
      exact ih [] (by simp)
    · simp only [lastSegAux, hc, if_neg, ite_false]
      exact ih (c :: acc) (by
        intro hm
        rcases List.mem_cons.mp hm with h1 | h1
        · exact hc h1.symm
        · exact h h1)

/-- The last segment of a path built as directory, slash, name is the
last segment of the name. -/
theorem lastSegment_append_slash (s1 s2 : String) :
    lastSegment (s1 ++ "/" ++ s2) = lastSegment s2 := by
  unfold lastSegment
  rw [String.data_append, String.data_append]
  have h : ("/" : String).data = ['/'] := rfl
  rw [h, List.append_assoc, List.singleton_append]
  rw [lastSegAux_append_slash s2.data (s1.data) []]

/-- Taking the last segment twice equals taking it once. -/
theorem lastSegment_idem (s : String) : lastSegment (lastSegment s) = lastSegment s := by
  unfold lastSegment
  rw [lastSegAux_no_slash (String.mk (lastSegAux s.data [])).data []
    (no_slash_lastSegAux s.data [] (by simp))]
  rfl

/-- With the destination absent, no special resolver, and a network that
raises on the chosen URL, one try body iteration fails with the network
error: the world is untouched and the entry comes back with its url list
sorted in place. -/
theorem attemptBody_fetch_fail {S : Type} (cfg : Config) (w : World S) (e : WEntry)
    (fdir prevFp url csum : String)
    (hurl : chooseUrl cfg.prefer_http (sortUrls e.url) = some url)
    (hcsum : e.sum[idxOf (sortUrls e.url) url]? = some csum)
    (hhttp : strStartsWith url "http" = true)
    (hres : resolverOf url = none)
    (hnofile : lookupFS w.fs (fdir ++ "/" ++ lastSegment url) = none)
    (hnet : w.net url = none) :
    attemptBody cfg w e fdir prevFp =
      (w, {e with url := sortUrls e.url}, fdir ++ "/" ++ lastSegment url,
       [Event.info ("downloading " ++ lastSegment url ++ " to " ++ (fdir ++ "/" ++ lastSegment url)),
        Event.netGet url],
       Except.error PyErr.netError) := by
  have hls : lastSegment (fdir ++ "/" ++ lastSegment url) = lastSegment url := by
    rw [lastSegment_append_slash, lastSegment_idem]
  unfold attemptBody
  simp [hurl, hcsum, hhttp, fetch_file, check_file, hnofile, resolve, hres, hnet, hls]

/-- With every try body iteration failing identically with the network
error on an entry already in sorted state, the retry loop makes exactly
its budget of attempts, reports and removes after each, and returns
normally. -/
theorem downloadLoop_all_fail {S : Type} (cfg : Config) (name : String) (w : World S)
    (e1 : WEntry) (fdir fp : String) (tr : List Event)
    (hfix : ∀ fp0, attemptBody cfg w e1 fdir fp0 = (w, e1, fp, tr, Except.error PyErr.netError))
    (hrm : removeFS w.fs fp = w.fs) :
    ∀ n, ∀ fp0, downloadLoop cfg name n w e1 fdir fp0 =
      (w, e1,
        (List.replicate n (tr ++ [Event.err ("Error while downloading " ++ name),
          Event.removeFile fp])).flatten,
        Except.ok ()) := by
  intro n
  induction n with
  | zero => intro fp0; simp [downloadLoop]
  | succ m ih =>
    intro fp0
    rw [downloadLoop]
    simp only [hfix fp0, hrm]
    simp only [ih fp]
    simp [List.replicate_succ, List.flatten_cons]

/-- Claim C7: an entry whose fetch step always throws (destination file
absent, no special resolver, network raising on the chosen URL) is
attempted exactly max_retry + 1 times; after every failed attempt the
error is reported and the partial output file removed; the task then
returns normally, so the exception never reaches sibling entries.  The
whole trace is given exactly, and the attempt and removal counts are
spelled out. -/
theorem retry_bound_exact {S : Type} (cfg : Config) (w : World S) (e : WEntry)
    (name cat url csum : String)
    (hurl : chooseUrl cfg.prefer_http (sortUrls e.url) = some url)
    (hcsum : e.sum[idxOf (sortUrls e.url) url]? = some csum)
    (hhttp : strStartsWith url "http" = true)
    (hres : resolverOf url = none)
    (hnofile : lookupFS w.fs ((cfg.wordlist_path ++ "/" ++ cat) ++ "/" ++ lastSegment url) = none)
    (hnet : w.net url = none) :
    download_wordlist cfg w e name cat =
      ((check_dir w (cfg.wordlist_path ++ "/" ++ cat)).1,
       {e with url := sortUrls e.url},
       (check_dir w (cfg.wordlist_path ++ "/" ++ cat)).2 ++
         (List.replicate (cfg.max_retry + 1)
           ([Event.info ("downloading " ++ lastSegment url ++ " to " ++
               ((cfg.wordlist_path ++ "/" ++ cat) ++ "/" ++ lastSegment url)),
             Event.netGet url] ++
            [Event.err ("Error while downloading " ++ name),
             Event.removeFile ((cfg.wordlist_path ++ "/" ++ cat) ++ "/" ++ lastSegment url)])).flatten,
       Except.ok ()) ∧
    (download_wordlist cfg w e name cat).2.2.1.countP
        (isErrOf ("Error while downloading " ++ name)) = cfg.max_retry + 1 ∧
    (download_wordlist cfg w e name cat).2.2.1.countP
        (isRemoveOf ((cfg.wordlist_path ++ "/" ++ cat) ++ "/" ++ lastSegment url)) =
      cfg.max_retry + 1 := by
  have hidem : sortUrls (sortUrls e.url) = sortUrls e.url := sortUrls_idem e.url
  have he1 : ({({e with url := sortUrls e.url} : WEntry) with
      url := sortUrls ({e with url := sortUrls e.url} : WEntry).url} : WEntry) =
      {e with url := sortUrls e.url} := by
    show WEntry.mk e.name (sortUrls (sortUrls e.url)) e.sum e.size =
      WEntry.mk e.name (sortUrls e.url) e.sum e.size
    rw [hidem]
  have main : ∀ w' : World S, w'.fs = w.fs → w'.net = w.net →
      downloadLoop cfg name (cfg.max_retry + 1) w' e
        (cfg.wordlist_path ++ "/" ++ cat) "" =
      (w', {e with url := sortUrls e.url},
       (List.replicate (cfg.max_retry + 1)
         ([Event.info ("downloading " ++ lastSegment url ++ " to " ++
             ((cfg.wordlist_path ++ "/" ++ cat) ++ "/" ++ lastSegment url)),
           Event.netGet url] ++
          [Event.err ("Error while downloading " ++ name),
           Event.removeFile ((cfg.wordlist_path ++ "/" ++ cat) ++ "/" ++ lastSegment url)])).flatten,
       Except.ok ()) := by
    intro w' hfs hn
    have hnofile' : lookupFS w'.fs
        ((cfg.wordlist_path ++ "/" ++ cat) ++ "/" ++ lastSegment url) = none := by
      rw [hfs]; exact hnofile
    have hnet' : w'.net url = none := by rw [hn]; exact hnet
    have h1 : ∀ fp0, attemptBody cfg w' e (cfg.wordlist_path ++ "/" ++ cat) fp0 =
        (w', {e with url := sortUrls e.url},
         (cfg.wordlist_path ++ "/" ++ cat) ++ "/" ++ lastSegment url,
         [Event.info ("downloading " ++ lastSegment url ++ " to " ++
            ((cfg.wordlist_path ++ "/" ++ cat) ++ "/" ++ lastSegment url)),
          Event.netGet url],
         Except.error PyErr.netError) := fun fp0 =>
      attemptBody_fetch_fail cfg w' e (cfg.wordlist_path ++ "/" ++ cat) fp0 url csum
        hurl hcsum hhttp hres hnofile' hnet'
    have h2 : ∀ fp0, attemptBody cfg w' {e with url := sortUrls e.url}
        (cfg.wordlist_path ++ "/" ++ cat) fp0 =
        (w', {e with url := sortUrls e.url},
         (cfg.wordlist_path ++ "/" ++ cat) ++ "/" ++ lastSegment url,
         [Event.info ("downloading " ++ lastSegment url ++ " to " ++
            ((cfg.wordlist_path ++ "/" ++ cat) ++ "/" ++ lastSegment url)),
          Event.netGet url],
         Except.error PyErr.netError) := by
      intro fp0
      have happ := attemptBody_fetch_fail cfg w' {e with url := sortUrls e.url}
        (cfg.wordlist_path ++ "/" ++ cat) fp0 url csum
        (hidem.symm ▸ hurl) (hidem.symm ▸ hcsum) hhttp hres hnofile' hnet'
      rw [happ, he1]
    have hrm : removeFS w'.fs ((cfg.wordlist_path ++ "/" ++ cat) ++ "/" ++ lastSegment url) =
        w'.fs := by
      rw [hfs]
      exact removeFS_of_lookup_none _ w.fs hnofile
    have hw2 : ({w' with fs := (removeFS w'.fs
        ((cfg.wordlist_path ++ "/" ++ cat) ++ "/" ++ lastSegment url))} : World S) = w' := by
      rw [hrm]
    rw [downloadLoop]
    simp only [h1 ""]
    simp only [hw2]
    rw [downloadLoop_all_fail cfg name w' {e with url := sortUrls e.url}
      (cfg.wordlist_path ++ "/" ++ cat)
      ((cfg.wordlist_path ++ "/" ++ cat) ++ "/" ++ lastSegment url)
      [Event.info ("downloading " ++ lastSegment url ++ " to " ++
         ((cfg.wordlist_path ++ "/" ++ cat) ++ "/" ++ lastSegment url)),
       Event.netGet url]
      h2 hrm cfg.max_retry ((cfg.wordlist_path ++ "/" ++ cat) ++ "/" ++ lastSegment url)]
    simp [List.replicate_succ, List.flatten_cons]
  have hc1fs : (check_dir w (cfg.wordlist_path ++ "/" ++ cat)).1.fs = w.fs := by
    by_cases h : (cfg.wordlist_path ++ "/" ++ cat) ∈ w.dirs <;> simp [check_dir, h]
  have hc1net : (check_dir w (cfg.wordlist_path ++ "/" ++ cat)).1.net = w.net := by
    by_cases h : (cfg.wordlist_path ++ "/" ++ cat) ∈ w.dirs <;> simp [check_dir, h]
  have htrace : download_wordlist cfg w e name cat =
      ((check_dir w (cfg.wordlist_path ++ "/" ++ cat)).1,
       {e with url := sortUrls e.url},
       (check_dir w (cfg.wordlist_path ++ "/" ++ cat)).2 ++
         (List.replicate (cfg.max_retry + 1)
           ([Event.info ("downloading " ++ lastSegment url ++ " to " ++
               ((cfg.wordlist_path ++ "/" ++ cat) ++ "/" ++ lastSegment url)),
             Event.netGet url] ++
            [Event.err ("Error while downloading " ++ name),
             Event.removeFile ((cfg.wordlist_path ++ "/" ++ cat) ++ "/" ++ lastSegment url)])).flatten,
       Except.ok ()) := by
    unfold download_wordlist
    simp only [main (check_dir w (cfg.wordlist_path ++ "/" ++ cat)).1 hc1fs hc1net]
  refine ⟨htrace, ?_, ?_⟩
  · rw [htrace]
    show ((check_dir w (cfg.wordlist_path ++ "/" ++ cat)).2 ++ _).countP _ = _
    rw [List.countP_append, countP_flatten_replicate]
    have hz : ((check_dir w (cfg.wordlist_path ++ "/" ++ cat)).2).countP
        (isErrOf ("Error while downloading " ++ name)) = 0 := by
      by_cases h : (cfg.wordlist_path ++ "/" ++ cat) ∈ w.dirs <;>
        simp [check_dir, h, isErrOf]
    rw [hz]
    simp [List.countP_cons, isErrOf]
  · rw [htrace]
    show ((check_dir w (cfg.wordlist_path ++ "/" ++ cat)).2 ++ _).countP _ = _
    rw [List.countP_append, countP_flatten_replicate]
    have hz : ((check_dir w (cfg.wordlist_path ++ "/" ++ cat)).2).countP
        (isRemoveOf ((cfg.wordlist_path ++ "/" ++ cat) ++ "/" ++ lastSegment url)) = 0 := by
      by_cases h : (cfg.wordlist_path ++ "/" ++ cat) ∈ w.dirs <;>
        simp [check_dir, h, isRemoveOf]
    rw [hz]
    simp [List.countP_cons, isRemoveOf]

/-- Witness for C7: one http entry against a dark network with the
default configuration; four attempts, four removals. -/
theorem retry_bound_exact_witness :
    download_wordlist {} worldDark entryHttp "x" "misc" =
      ((check_dir worldDark ("/usr/share/wordlists" ++ "/" ++ "misc")).1,
       {entryHttp with url := sortUrls entryHttp.url},
       (check_dir worldDark ("/usr/share/wordlists" ++ "/" ++ "misc")).2 ++
         (List.replicate 4
           ([Event.info ("downloading " ++ lastSegment "http://h/x.bin" ++ " to " ++
               (("/usr/share/wordlists" ++ "/" ++ "misc") ++ "/" ++ lastSegment "http://h/x.bin")),
             Event.netGet "http://h/x.bin"] ++
            [Event.err ("Error while downloading " ++ "x"),
             Event.removeFile (("/usr/share/wordlists" ++ "/" ++ "misc") ++ "/" ++
               lastSegment "http://h/x.bin")])).flatten,
       Except.ok ()) ∧
    (download_wordlist {} worldDark entryHttp "x" "misc").2.2.1.countP
        (isErrOf ("Error while downloading " ++ "x")) = 4 ∧
    (download_wordlist {} worldDark entryHttp "x" "misc").2.2.1.countP
        (isRemoveOf (("/usr/share/wordlists" ++ "/" ++ "misc") ++ "/" ++
          lastSegment "http://h/x.bin")) = 4 :=
  retry_bound_exact {} worldDark entryHttp "x" "misc" "http://h/x.bin" "c"
    (by decide) (by decide) (by decide) (by decide) rfl rfl

/-- Claim C3: the in place urls.sort() on line 335 aliases config url, so
the checksum lookup on line 343 indexes the sorted list instead of the
original unsorted alignment.  At this entry with prefer http the chosen
URL is the sorted smallest one; the code verifies it against checksum s0,
the checksum of the other URL, while the checksum at the chosen URLs
index within the original unsorted alignment is s1. -/
theorem checksum_alignment_bug :
    (sortUrls entryBA.url).head? = some "http://a/file" ∧
    Event.verify "s0" "/usr/share/wordlists/misc/file" ∈
      (download_wordlist cfgPreferHttp worldBA entryBA "e" "misc").2.2.1 ∧
    entryBA.sum.get? (idxOf entryBA.url "http://a/file") = some "s1" ∧
    "s0" ≠ "s1" := by decide

/-- Claim C4: the same in place sort mutates the CatalogEntry itself:
after retrieval the entry has its url field replaced by the sorted list
and is no longer equal to the entry the catalog supplied. -/
theorem entry_mutated_by_sort :
    (download_wordlist cfgPreferHttp worldBA entryBA "e" "misc").2.1 =
      {entryBA with url := ["http://a/file", "http://b/file"]} ∧
    (download_wordlist cfgPreferHttp worldBA entryBA "e" "misc").2.1 ≠ entryBA := by decide

/-- Claim C5: on the HTTP path the code calls decompress unconditionally
(line 347); the decompress_archive flag, documented as the opt in -X
switch and false here, is never consulted, so the Archive Decompressor
runs on a successful fetch even with the flag clear. -/
theorem http_decompress_ignores_flag :
    ({} : Config).decompress_archive = false ∧
    Event.decompressCall "/usr/share/wordlists/misc/a.gz" ∈
      (download_wordlist {} worldGz entryGz "a" "misc").2.2.1 ∧
    (download_wordlist {} worldGz entryGz "a" "misc").2.2.2 = Except.ok () := by decide

/-- Counterexample for C6: at id -1 with the base directory absent,
selection fails with the IndexError, yet a directory creation has
already happened: check_dir on the base path runs before validation
(line 365), so the filesystem is touched. -/
theorem invalid_id_creates_base_dir :
    Event.mkdir "/usr/share/wordlists" ∈
      (download_wordlists {} repoSmall worldDark (-1)).2 ∧
    (-1 : Int) < 0 ∧
    select repoSmall "" (-1) =
      Except.error (PyErr.indexError "is not a valid wordlist id") := by decide

/-- Claim C6 amended: for id < 0 or id > totalEntries, selection fails
with the IndexError, no entry task is submitted and no network event
occurs; the only possible filesystem effect is the creation of the base
wordlist directory, which is ensured before validation. -/
theorem invalid_id_no_submit {S : Type} (cfg : Config) (repo : Repo) (w : World S)
    (wid : Int) (h : wid < 0 ∨ (totalCount repo : Int) < wid) :
    select repo cfg.selected_category wid =
      Except.error (PyErr.indexError "is not a valid wordlist id") ∧
    (download_wordlists cfg repo w wid).2 =
      (if cfg.wordlist_path ∈ w.dirs then [] else [Event.mkdir cfg.wordlist_path]) ++
        [Event.err "Error unable to download wordlist"] ∧
    ∀ e ∈ (download_wordlists cfg repo w wid).2,
      (∀ n, e ≠ Event.submit n) ∧ isNetEvent e = false := by
  have hcond : wid ≥ (totalCount repo : Int) + 1 ∨ wid < 0 := by
    rcases h with h | h
    · exact Or.inr h
    · exact Or.inl (by omega)
  have hsel : select repo cfg.selected_category wid =
      Except.error (PyErr.indexError "is not a valid wordlist id") := by
    unfold select
    rw [if_pos hcond]
  have hevs : (download_wordlists cfg repo w wid).2 =
      (if cfg.wordlist_path ∈ w.dirs then [] else [Event.mkdir cfg.wordlist_path]) ++
        [Event.err "Error unable to download wordlist"] := by
    unfold download_wordlists
    rw [hsel]
    by_cases hd : cfg.wordlist_path ∈ w.dirs <;> simp [check_dir, hd]
  refine ⟨hsel, hevs, ?_⟩
  intro e he
  rw [hevs] at he
  rcases List.mem_append.mp he with h1 | h1
  · by_cases hd : cfg.wordlist_path ∈ w.dirs
    · rw [if_pos hd] at h1
      exact absurd h1 (by simp)
    · rw [if_neg hd] at h1
      simp at h1
      rw [h1]
      exact ⟨fun n hn => Event.noConfusion hn, rfl⟩
  · simp at h1
    rw [h1]
    exact ⟨fun n hn => Event.noConfusion hn, rfl⟩

/-- Witness for C6 amended at id -1 over the small two category repo. -/
theorem invalid_id_no_submit_witness :
    select repoSmall ({} : Config).selected_category (-1) =
      Except.error (PyErr.indexError "is not a valid wordlist id") ∧
    (download_wordlists {} repoSmall worldDark (-1)).2 =
      (if ({} : Config).wordlist_path ∈ worldDark.dirs then []
        else [Event.mkdir ({} : Config).wordlist_path]) ++
        [Event.err "Error unable to download wordlist"] ∧
    ∀ e ∈ (download_wordlists {} repoSmall worldDark (-1)).2,
      (∀ n, e ≠ Event.submit n) ∧ isNetEvent e = false :=
  invalid_id_no_submit {} repoSmall worldDark (-1) (Or.inl (by decide))

/-! ## Lemmas about global id selection -/

/-- A Python negative index just below zero by the distance from the end
lands on the corresponding position from the front. -/
theorem pyGet_neg {α : Type} (l : List α) (j : Nat) (hj : j < l.length) :
    pyGet l ((j : Int) - (l.length : Int)) = l.get? j := by
  unfold pyGet
  rw [if_neg (by omega)]
  have h2 : (-((j : Int) - (l.length : Int))).toNat = l.length - j := by omega
  rw [h2, if_pos (by omega)]
  congr 1
  omega

/-- Cumulative counting specification: with cached counts matching the
file lists and i below the total, the loop breaks at the first category
whose cumulative count exceeds i, and the negative Python index of lines
395-396 lands on the entry at offset i minus the preceding cumulative
count, which is exactly entry i of the flattened catalog. -/
theorem findCat_spec :
    ∀ (repo : Repo) (i acc : Nat),
      (∀ p ∈ repo, (p.2 : Cat).count = p.2.files.length) →
      i < totalCount repo →
      ∃ pre nm c post f,
        repo = pre ++ (nm, c) :: post ∧
        totalCount pre ≤ i ∧
        i < totalCount pre + c.count ∧
        findCat repo ((i : Int) + (acc : Int)) acc =
          some (nm, c, acc + (totalCount pre + c.count)) ∧
        c.files.get? (i - totalCount pre) = some f ∧
        pyGet c.files (((i : Int) + (acc : Int)) -
          ((acc + (totalCount pre + c.count) : Nat) : Int)) = some f ∧
        (flattenRepo repo).get? i = some f := by
  intro repo
  induction repo with
  | nil =>
    intro i acc _ hi
    simp [totalCount] at hi
  | cons hd rest ih =>
    intro i acc hcounts hi
    obtain ⟨nm, c⟩ := hd
    have hcount : c.count = c.files.length := hcounts (nm, c) (List.mem_cons_self ..)
    by_cases hlt : i < c.count
    · have hjlen : i < c.files.length := hcount ▸ hlt
      refine ⟨[], nm, c, rest, c.files.get ⟨i, hjlen⟩, rfl, by simp [totalCount], ?_, ?_,
        List.get?_eq_get hjlen, ?_, ?_⟩
      · simpa [totalCount] using hlt
      · simp only [findCat]
        rw [if_pos (by push_cast; omega)]
        have hcum : acc + c.count = acc + (totalCount ([] : Repo) + c.count) := by
          simp [totalCount]
        rw [hcum]
      · have harg : ((i : Int) + (acc : Int)) -
            ((acc + (totalCount ([] : Repo) + c.count) : Nat) : Int) =
            (i : Int) - (c.files.length : Int) := by
          simp only [totalCount]
          push_cast
          omega
        rw [harg, pyGet_neg c.files i hjlen]
        exact List.get?_eq_get hjlen
      · have hfc : flattenRepo ((nm, c) :: rest) = c.files ++ flattenRepo rest := by
          simp [flattenRepo]
        rw [hfc, List.get?_append hjlen]
        exact List.get?_eq_get hjlen
    · have hge : c.count ≤ i := Nat.le_of_not_lt hlt
      have hresti : i - c.count < totalCount rest := by
        simp only [totalCount] at hi
        omega
      obtain ⟨pre, nm', c', post, f, hdec, hle, hup, hfind, hget, hpy, hflat⟩ :=
        ih (i - c.count) (acc + c.count) (fun p hp => hcounts p (List.mem_cons_of_mem _ hp))
          hresti
      refine ⟨(nm, c) :: pre, nm', c', post, f, by rw [hdec]; rfl, ?_, ?_, ?_, ?_, ?_, ?_⟩
      · simp only [totalCount]
        omega
      · simp only [totalCount] at hup ⊢
        omega
      · simp only [findCat]
        rw [if_neg (by push_cast; omega)]
        have harg : (((i - c.count : Nat) : Int) + ((acc + c.count : Nat) : Int)) =
            (i : Int) + (acc : Int) := by omega
        rw [harg] at hfind
        rw [hfind]
        have hcum : (acc + c.count) + (totalCount pre + c'.count) =
            acc + (totalCount ((nm, c) :: pre) + c'.count) := by
          simp only [totalCount]
          omega
        rw [hcum]
      · have hidx : i - totalCount ((nm, c) :: pre) = (i - c.count) - totalCount pre := by
          simp only [totalCount]
          omega
        rw [hidx]
        exact hget
      · have harg2 : ((i : Int) + (acc : Int)) -
            ((acc + (totalCount ((nm, c) :: pre) + c'.count) : Nat) : Int) =
            (((i - c.count : Nat) : Int) + ((acc + c.count : Nat) : Int)) -
              (((acc + c.count) + (totalCount pre + c'.count) : Nat) : Int) := by
          simp only [totalCount]
          push_cast
          omega
        rw [harg2]
        exact hpy
      · have hfc : flattenRepo ((nm, c) :: rest) = c.files ++ flattenRepo rest := by
          simp [flattenRepo]
        rw [hfc, List.get?_append_right (by omega : c.files.length ≤ i)]
        rw [show i - c.files.length = i - c.count from by omega]
        exact hflat

/-- Claim C2: for every valid id in 1..totalEntries with no active
category, selection resolves to exactly one entry: the owning category
is the first whose cumulative count reaches or exceeds id, the picked
entry sits at offset id - 1 minus the cumulative count of the preceding
categories, and it is the id-th entry of the catalog flattened in
declaration order. -/
theorem select_global_id_flatten (repo : Repo) (i : Nat)
    (hcounts : ∀ p ∈ repo, (p.2 : Cat).count = p.2.files.length)
    (hi : i < totalCount repo) :
    ∃ pre nm c post f,
      repo = pre ++ (nm, c) :: post ∧
      totalCount pre ≤ i ∧ i < totalCount pre + c.count ∧
      c.files.get? (i - totalCount pre) = some f ∧
      (flattenRepo repo).get? i = some f ∧
      select repo "" ((i : Int) + 1) = Except.ok [(nm, [f])] := by
  obtain ⟨pre, nm, c, post, f, hdec, hle, hup, hfind, hget, hpy, hflat⟩ :=
    findCat_spec repo i 0 hcounts hi
  refine ⟨pre, nm, c, post, f, hdec, hle, hup, hget, hflat, ?_⟩
  unfold select
  rw [if_neg (by omega)]
  rw [if_neg (by omega : ¬ ((i : Int) + 1 = 0))]
  rw [if_neg (by simp : ¬ ("" : String) ≠ "")]
  rw [show ((i : Int) + 1) - 1 = (i : Int) + ((0 : Nat) : Int) from by push_cast; ring]
  rw [hfind]
  simp only [hpy]

/-- Witness for C2 at id 3 over the two category catalog: the owning
category is the second one and the entry is its first file, which is
also entry 3 of the flattened list. -/
theorem select_global_id_flatten_witness :
    ∃ pre nm c post f,
      repoSmall = pre ++ (nm, c) :: post ∧
      totalCount pre ≤ 2 ∧ 2 < totalCount pre + c.count ∧
      c.files.get? (2 - totalCount pre) = some f ∧
      (flattenRepo repoSmall).get? 2 = some f ∧
      select repoSmall "" (((2 : Nat) : Int) + 1) = Except.ok [(nm, [f])] :=
  select_global_id_flatten repoSmall 2 (by decide) (by decide)

end Wordlistctl
